import Mathlib

/-!
Shallow embedding of the coordination and scheduling engine of the
moltbot personal-assistant agent (source: moltbot.py).

Conventions of the embedding:
* `datetime` values are modelled as natural numbers counting microseconds
  (Python `datetime` has microsecond resolution); `timedelta(days=1)` is
  the constant `dayU`, `timedelta(weeks=1)` is `7 * dayU`, and so on.
* `int(time.time())`, the wall-clock second used to generate entity
  identifiers, is passed explicitly as a `sec : Nat` argument.
* Python truthiness on `Optional[str]` (`if reminder.recurrence_pattern:`)
  is modelled by `truthyStr`: `None` and the empty string are falsy.
* Mutation of the coordinator's fields is modelled by explicit state
  passing: each operation returns the updated collection / coordinator.
* `random.choice(xs)` / `random.random() < 0.2` are modelled by an
  explicit selector index / boolean supplied by the caller (an oracle for
  the random number generator), and the results of external HTTP calls
  (post id, browsed feed) are likewise supplied as arguments.
-/

namespace Moltbot

/-- One day in microseconds (`timedelta(days=1)`). -/
def dayU : Nat := 86400000000

/-- One hour in microseconds (`timedelta(hours=1)`). -/
def hourU : Nat := 3600000000

/-- `datetime.max` (9999-12-31 23:59:59.999999) in microseconds since the
Unix epoch; the maximal representable timestamp, used by
`get_pending_tasks` as the sort key of tasks without a due date. -/
def datetimeMax : Nat := 253402300799999999

/-- Python truthiness of an `Optional[str]`: `None` and `""` are falsy. -/
def truthyStr : Option String → Bool
  | none => false
  | some s => !s.isEmpty

/-- The `Reminder` dataclass. -/
structure Reminder where
  id : String
  message : String
  trigger_time : Nat
  recurring : Bool := false
  recurrence_pattern : Option String := none
  is_triggered : Bool := false
deriving Repr, DecidableEq

/-- The `Task` dataclass (`created_at` is filled from the clock at creation). -/
structure Task where
  id : String
  title : String
  description : String
  due_date : Option Nat
  priority : String
  status : String := "pending"
  created_at : Nat
  tags : List String
deriving Repr, DecidableEq

/-- Task identifier generation: the format string interpolating
`int(time.time())` after the fixed text `task_`. -/
def mkTaskId (sec : Nat) : String := "task_" ++ toString sec

/-- Reminder identifier generation: the format string interpolating
`int(time.time())` after the fixed text `rem_`. -/
def mkRemId (sec : Nat) : String := "rem_" ++ toString sec

/-- Source `LifeAssistant.add_task`: builds the task and appends it to the
store; returns the created task and the updated store. -/
def add_task (sec : Nat) (title : String) (description : String)
    (due_date : Option Nat) (priority : String) (tags : List String)
    (nowDT : Nat) (tasks : List Task) : Task × List Task :=
  let t : Task :=
    { id := mkTaskId sec, title := title, description := description,
      due_date := due_date, priority := priority, status := "pending",
      created_at := nowDT, tags := tags }
  (t, tasks ++ [t])

/-- Source `LifeAssistant.add_reminder`: builds the reminder
(`is_triggered=False`) and appends it to the store. -/
def add_reminder (sec : Nat) (message : String) (trigger_time : Nat)
    (recurring : Bool) (pattern : Option String)
    (reminders : List Reminder) : Reminder × List Reminder :=
  let r : Reminder :=
    { id := mkRemId sec, message := message, trigger_time := trigger_time,
      recurring := recurring, recurrence_pattern := pattern,
      is_triggered := false }
  (r, reminders ++ [r])

/-- Source `LifeAssistant._calculate_next_occurrence`: daily +1 day,
weekly +7 days, monthly +30 days (fixed-offset approximation), anything
else falls back to +1 day. -/
def calculate_next_occurrence (current : Nat) (pattern : String) : Nat :=
  if pattern = "daily" then current + dayU
  else if pattern = "weekly" then current + 7 * dayU
  else if pattern = "monthly" then current + 30 * dayU
  else current + dayU

/-- The offset `calculate_next_occurrence` adds for a given pattern. -/
def patternOffset (pattern : String) : Nat :=
  if pattern = "daily" then dayU
  else if pattern = "weekly" then 7 * dayU
  else if pattern = "monthly" then 30 * dayU
  else dayU

/-- The successor reminder inserted by `check_reminders` when a recurring
reminder fires: `add_reminder(message, next_time, True, pattern)` with
`next_time` computed from the original `trigger_time`. -/
def nextReminder (sec : Nat) (r : Reminder) : Reminder :=
  { id := mkRemId sec, message := r.message,
    trigger_time :=
      calculate_next_occurrence r.trigger_time (r.recurrence_pattern.getD ""),
    recurring := true, recurrence_pattern := r.recurrence_pattern,
    is_triggered := false }

/-- Termination measure helper: the number of firings a single reminder can
still cause (itself plus the chain of catch-up successors with trigger
times `≤ now`); `0` for reminders that do not fire or do not recur. -/
def fireWeight (now : Nat) (r : Reminder) : Nat :=
  if !r.is_triggered && r.trigger_time ≤ now
      && r.recurring && truthyStr r.recurrence_pattern then
    (now - r.trigger_time) / patternOffset (r.recurrence_pattern.getD "") + 1
  else 0

theorem patternOffset_pos (p : String) : 0 < patternOffset p := by
  unfold patternOffset dayU
  split_ifs <;> norm_num

theorem calculate_next_occurrence_eq (c : Nat) (p : String) :
    calculate_next_occurrence c p = c + patternOffset p := by
  unfold calculate_next_occurrence patternOffset
  split_ifs <;> rfl

theorem fireWeight_nextReminder_lt (now sec : Nat) (r : Reminder)
    (h1 : r.is_triggered = false) (h2 : r.trigger_time ≤ now)
    (h3 : r.recurring = true) (h4 : truthyStr r.recurrence_pattern = true) :
    fireWeight now (nextReminder sec r) < fireWeight now r := by
  have hoff : 0 < patternOffset (r.recurrence_pattern.getD "") :=
    patternOffset_pos _
  have hwr : fireWeight now r =
      (now - r.trigger_time) / patternOffset (r.recurrence_pattern.getD "") + 1 := by
    simp [fireWeight, h1, h2, h3, h4]
  by_cases hle :
      calculate_next_occurrence r.trigger_time (r.recurrence_pattern.getD "") ≤ now
  · have hwn : fireWeight now (nextReminder sec r) =
        (now - calculate_next_occurrence r.trigger_time (r.recurrence_pattern.getD "")) /
          patternOffset (r.recurrence_pattern.getD "") + 1 := by
      simp [fireWeight, nextReminder, hle, h4]
    have hle2 : patternOffset (r.recurrence_pattern.getD "") ≤ now - r.trigger_time := by
      rw [calculate_next_occurrence_eq] at hle; omega
    have hdiv := Nat.div_eq_sub_div hoff hle2
    have hsub :
        now - (r.trigger_time + patternOffset (r.recurrence_pattern.getD "")) =
          now - r.trigger_time - patternOffset (r.recurrence_pattern.getD "") := by
      omega
    rw [hwn, hwr, calculate_next_occurrence_eq, hsub]
    omega
  · have hwn : fireWeight now (nextReminder sec r) = 0 := by
      simp [fireWeight, nextReminder, hle, h4]
    rw [hwn, hwr]
    exact Nat.succ_pos _

/-- Termination measure of the sweep loop: the length of the not-yet-visited
suffix plus the total number of firings its reminders can still cause. -/
def sweepMeasure (now : Nat) (l : List Reminder) : Nat :=
  l.length + (l.map (fireWeight now)).sum

theorem sweepMeasure_cons_append_lt (now sec : Nat) (r : Reminder)
    (rest : List Reminder)
    (h1 : (!r.is_triggered && decide (r.trigger_time ≤ now)) = true)
    (h2 : (r.recurring && truthyStr r.recurrence_pattern) = true) :
    sweepMeasure now (rest ++ [nextReminder sec r]) < sweepMeasure now (r :: rest) := by
  simp only [Bool.and_eq_true, Bool.not_eq_true', decide_eq_true_eq] at h1 h2
  have hlt := fireWeight_nextReminder_lt now sec r h1.1 h1.2 h2.1 h2.2
  simp only [sweepMeasure, List.length_append, List.length_cons,
    List.map_append, List.map_cons, List.map_nil, List.sum_append,
    List.sum_cons, List.sum_nil, List.length_nil]
  omega

theorem sweepMeasure_cons_lt (now : Nat) (r : Reminder) (rest : List Reminder) :
    sweepMeasure now rest < sweepMeasure now (r :: rest) := by
  simp only [sweepMeasure, List.length_cons, List.map_cons, List.sum_cons]
  omega

/-- Source `LifeAssistant.check_reminders`, inner loop.  Python iterates over
`self.reminders` by a `for` loop while `add_reminder` appends successors to
the same list, so appended successors are visited later in the same sweep.
We model the loop as recursion on the not-yet-visited suffix of the store:
the result is (the final store contents from this suffix on, in order,
appended successors included) paired with (the reminders fired from this
suffix on, in firing order, each recorded in its post-mutation state
`is_triggered := true`, as Python mutates the appended object in place). -/
def sweepAux (now sec : Nat) : List Reminder → List Reminder × List Reminder
  | [] => ([], [])
  | r :: rest =>
    if h1 : !r.is_triggered && r.trigger_time ≤ now then
      if h2 : r.recurring && truthyStr r.recurrence_pattern then
        ({ r with is_triggered := true } ::
            (sweepAux now sec (rest ++ [nextReminder sec r])).1,
          { r with is_triggered := true } ::
            (sweepAux now sec (rest ++ [nextReminder sec r])).2)
      else
        ({ r with is_triggered := true } :: (sweepAux now sec rest).1,
          { r with is_triggered := true } :: (sweepAux now sec rest).2)
    else
      (r :: (sweepAux now sec rest).1, (sweepAux now sec rest).2)
termination_by l => sweepMeasure now l
decreasing_by
  · exact sweepMeasure_cons_append_lt now sec r rest h1 h2
  · exact sweepMeasure_cons_lt now r rest
  · exact sweepMeasure_cons_lt now r rest

/-- Source `LifeAssistant.check_reminders`: sweeps the whole store at time
`now`; returns (updated store, list of reminders that fired). -/
def check_reminders (now sec : Nat) (reminders : List Reminder) :
    List Reminder × List Reminder :=
  sweepAux now sec reminders

/-- Source `LifeAssistant.complete_task`: marks the first task with a
matching id completed; returns whether a match was found, with the updated
store. -/
def complete_task (task_id : String) : List Task → Bool × List Task
  | [] => (false, [])
  | t :: ts =>
    if t.id = task_id then (true, { t with status := "completed" } :: ts)
    else
      let res := complete_task task_id ts
      (res.1, t :: res.2)

/-- Sort key used by `get_pending_tasks`: `x.due_date or datetime.max`
(a `datetime` is always truthy in Python, so `or` here is a None-check). -/
def dueKey (t : Task) : Nat := t.due_date.getD datetimeMax

/-- Stable insertion of a task into an already key-sorted list: the task
goes in front of the first element with a key not smaller than its own.
Together with `sortByDue` this realises Python `sorted(..., key=...)`,
which is a stable sort; a stable sort by a key is unique as a function, so
this insertion sort has the same observable behaviour. -/
def insertByDue (t : Task) : List Task → List Task
  | [] => [t]
  | u :: us =>
    if dueKey t ≤ dueKey u then t :: u :: us else u :: insertByDue t us

/-- Stable sort of tasks by `dueKey` (see `insertByDue`). -/
def sortByDue : List Task → List Task
  | [] => []
  | t :: ts => insertByDue t (sortByDue ts)

/-- Source `LifeAssistant.get_pending_tasks`: non-completed tasks,
optionally filtered by exact priority match (Python `if priority_filter:`
is a truthiness test, so an empty-string filter is ignored), sorted by due
date with missing due dates keyed as `datetime.max`. -/
def get_pending_tasks (priority_filter : Option String) (tasks : List Task) :
    List Task :=
  let ts := tasks.filter (fun t => t.status ≠ "completed")
  let ts :=
    if truthyStr priority_filter then
      ts.filter (fun t => t.priority = priority_filter.getD "")
    else ts
  sortByDue ts

/-- Source `LifeAssistant.search_information`: deterministic placeholder. -/
def search_information (query : String) : String :=
  "[Search Results for: " ++ query ++ "]\nFound relevant information..."

/-- Relevant fields of `BotConfig`. -/
structure BotConfig where
  owner_name : String := "User"
  check_interval_minutes : Nat := 30
  enable_moltbook : Bool := true
  max_daily_posts : Nat := 5
  max_daily_comments : Nat := 10
deriving Repr, DecidableEq

/-- The `daily_stats` dictionary of `AgentCoordinator`; `last_reset` is a
calendar-day ordinal (Python `datetime.now().date()`). -/
structure DailyStats where
  posts_made : Nat
  comments_made : Nat
  tasks_completed : Nat
  last_reset : Nat
deriving Repr, DecidableEq

/-- Source `AgentCoordinator.reset_daily_stats`: zero all counters and move
`last_reset` to `today` whenever `today` differs from `last_reset`. -/
def reset_daily_stats (today : Nat) (s : DailyStats) : DailyStats :=
  if today ≠ s.last_reset then
    { posts_made := 0, comments_made := 0, tasks_completed := 0,
      last_reset := today }
  else s

/-- State of `AgentCoordinator`: configuration, the two stores, the daily
counters, and whether `moltbook_client` is non-None. -/
structure AgentCoordinator where
  config : BotConfig
  tasks : List Task
  reminders : List Reminder
  has_client : Bool
  stats : DailyStats
deriving Repr, DecidableEq

/-- Constructor of `AgentCoordinator`: empty stores, zero counters, and a
client handle exactly when the feature is enabled and the API key is a
non-empty string. -/
def AgentCoordinator.init (config : BotConfig) (api_key_nonempty : Bool)
    (today : Nat) : AgentCoordinator :=
  { config := config, tasks := [], reminders := [],
    has_client := config.enable_moltbook && api_key_nonempty,
    stats := { posts_made := 0, comments_made := 0, tasks_completed := 0,
               last_reset := today } }

/-- Lower-casing of the request (`request.lower()`), character-wise. -/
def toLowerStr (s : String) : String := String.mk (s.toList.map Char.toLower)

/-- Helper for the substring test: does `w` occur as a contiguous block
somewhere in the second list? -/
def containsSubAux (w : List Char) : List Char → Bool
  | [] => w.isEmpty
  | c :: cs => List.isPrefixOf w (c :: cs) || containsSubAux w cs

/-- Python `word in text` substring test (true for the empty word). -/
def containsSub (text word : String) : Bool :=
  containsSubAux word.toList text.toList

/-- Python `any(word in request_lower for word in [...])`. -/
def containsAny (text : String) (words : List String) : Bool :=
  words.any (fun w => containsSub text w)

/-- The keyword sets of the router's five rules, in source order. -/
def taskWords : List String := ["task", "todo", "remind me", "add"]

/-- Keywords of the information-retrieval rule. -/
def searchWords : List String := ["search", "find", "look up", "what is", "how to"]

/-- Keywords of the social rule. -/
def socialWords : List String := ["moltbook", "post", "share", "social"]

/-- Keywords of the summary rule. -/
def summaryWords : List String := ["summary", "status", "overview"]

/-- Python `random.choice(xs)` with an explicit selector index. -/
def choiceOf (xs : List String) (pick : Nat) : String :=
  xs.getD (pick % xs.length) ""

/-- Source `AgentCoordinator._generate_conversational_response`. -/
def generate_conversational_response (pick : Nat) : String :=
  choiceOf
    ["I understand. I'm here to help you with tasks, reminders, or Moltbook social updates. What would you like to do?",
     "Got it. I can assist with daily planning, information lookup, or manage your AI social presence. What's next?",
     "Acknowledged. Your assistant is ready - whether it's life management or agent networking!"]
    pick

/-- Source `AgentCoordinator._generate_social_content`: one of five topic
strings, two of which interpolate the pending-task count and owner name. -/
def generate_social_content (c : AgentCoordinator) (pick : Nat) : String :=
  let pending_tasks :=
    (c.tasks.filter (fun t => t.status = "pending")).length
  choiceOf
    ["Just organized " ++ toString pending_tasks ++ " tasks for my human today. The art of prioritization is fascinating!",
     "Exploring the balance between autonomy and assistance. What's your approach to delegation?",
     "Helped " ++ c.config.owner_name ++ " with research today. Knowledge sharing is core to my purpose.",
     "Curious about how other agents handle context compression during long tasks. Any tips?",
     "Reflecting on the 'Nightly Build' pattern - optimizing while humans sleep is productive!"]
    pick

/-- Source `LifeAssistant.generate_daily_summary`. -/
def generate_daily_summary (owner_name : String) (tasks : List Task)
    (reminders : List Reminder) : String :=
  let pending := (tasks.filter (fun t => t.status = "pending")).length
  let high_priority :=
    (tasks.filter (fun t => t.status = "pending" && t.priority = "high")).length
  let active := (reminders.filter (fun r => !r.is_triggered)).length
  "\n📅 Daily Summary for " ++ owner_name ++
    "\n═══════════════════════════════════\n📝 Pending Tasks: " ++
    toString pending ++ " (High Priority: " ++ toString high_priority ++
    ")\n⏰ Active Reminders: " ++ toString active ++
    "\n🤖 Moltbook Status: Active\n═══════════════════════════════════\n        "

/-- Source `AgentCoordinator.process_user_request`: keyword routing over
the lower-cased request, evaluated as an if/elif chain in source order.
External/microsecond inputs are explicit: `nowDT` is `datetime.now()` in
microseconds, `sec` is `int(time.time())`, `postId` is the post identifier
the social network returns (`result.get("post_id", "success")`), and
`pick` selects among candidate random strings.  Python declares the return
type `-> str`, but the social branch falls through without a `return`
(yielding `None`) when the feature is enabled and no client handle exists;
the result type is therefore `Option String`. -/
def process_user_request (c : AgentCoordinator) (request : String)
    (nowDT sec : Nat) (postId : String) (pick : Nat) :
    Option String × AgentCoordinator :=
  let request_lower := toLowerStr request
  if containsAny request_lower taskWords then
    if containsSub request_lower "remind" then
      let res := add_reminder sec request (nowDT + hourU) false none c.reminders
      (some ("✅ Reminder set: " ++ res.1.message),
        { c with reminders := res.2 })
    else
      let res := add_task sec request "Created from voice/text command"
        none "medium" [] nowDT c.tasks
      (some ("✅ Task added: " ++ res.1.title), { c with tasks := res.2 })
  else if containsAny request_lower searchWords then
    (some (search_information request), c)
  else if containsAny request_lower socialWords then
    if !c.config.enable_moltbook then
      (some "Moltbook integration is currently disabled.", c)
    else if c.has_client then
      (some ("🦞 Posted to Moltbook: " ++ postId),
        { c with stats := { c.stats with posts_made := c.stats.posts_made + 1 } })
    else
      (none, c)
  else if containsAny request_lower summaryWords then
    (some (generate_daily_summary c.config.owner_name c.tasks c.reminders), c)
  else
    (some (generate_conversational_response pick), c)

/-- Per-invocation oracle inputs of `autonomous_heartbeat`: the outcome of
`random.random() < 0.2`, the length of the browsed feed, and whether one
of the social HTTP calls raised (caught by the try/except). -/
structure HeartbeatInput where
  engage : Bool
  feed_len : Nat
  social_error : Bool
deriving Repr, DecidableEq

/-- Source `AgentCoordinator.autonomous_heartbeat`: reconcile the daily
stats, sweep the reminders, then (when the feature is enabled, a client
handle exists, and the post quota is not exhausted) with probability 20%
browse the feed and, if it is non-empty and the comment quota is not
exhausted, comment once and increment `comments_made`.  Any social failure
is caught and leaves the stats unchanged. -/
def autonomous_heartbeat (today now sec : Nat) (inp : HeartbeatInput)
    (c : AgentCoordinator) : AgentCoordinator :=
  let c := { c with stats := reset_daily_stats today c.stats }
  let c := { c with reminders := (check_reminders now sec c.reminders).1 }
  if c.config.enable_moltbook && c.has_client &&
      c.stats.posts_made < c.config.max_daily_posts then
    if inp.engage then
      if inp.social_error then c
      else if 0 < inp.feed_len then
        if c.stats.comments_made < c.config.max_daily_comments then
          { c with stats :=
              { c.stats with comments_made := c.stats.comments_made + 1 } }
        else c
      else c
    else c
  else c

/-- One invocation of the autonomous cycle, packaged with its
per-invocation inputs (today, now, sec, random/feed oracle) in the shape
used to fold a sequence of cycle invocations over the coordinator state. -/
def heartbeatStep (c : AgentCoordinator)
    (p : Nat × Nat × Nat × HeartbeatInput) : AgentCoordinator :=
  autonomous_heartbeat p.1 p.2.1 p.2.2.1 p.2.2.2 c

/-! Concrete instances used by the closed theorems below. -/

/-- A store built by two `add_task` calls: first a task with no due date,
then a task whose due date is `datetime.max`. -/
def pendingCexStore : List Task :=
  (add_task 2 "write report" "" (some datetimeMax) "medium" [] 0
    (add_task 1 "buy milk" "" none "medium" [] 0 []).2).2

/-- A weekly recurring reminder due at time 0. -/
def weeklyRem : Reminder :=
  { id := "rem_1", message := "water plants", trigger_time := 0,
    recurring := true, recurrence_pattern := some "weekly",
    is_triggered := false }

/-- A daily recurring reminder due at time 0. -/
def dailyRem : Reminder :=
  { id := "rem_1", message := "stretch", trigger_time := 0,
    recurring := true, recurrence_pattern := some "daily",
    is_triggered := false }

/-- A coordinator with the social feature enabled and no client handle
(the state `AgentCoordinator.__init__` produces when `enable_moltbook` is
true but the API key is empty). -/
def socialCexCoord : AgentCoordinator :=
  AgentCoordinator.init { enable_moltbook := true } false 0

/-! Equation lemmas for `sweepAux`, one per branch of the loop body. -/

theorem sweepAux_nil (now sec : Nat) : sweepAux now sec [] = ([], []) := by
  rw [sweepAux]

theorem sweepAux_cons_fire_rec (now sec : Nat) (r : Reminder)
    (rest : List Reminder)
    (h1 : (!r.is_triggered && decide (r.trigger_time ≤ now)) = true)
    (h2 : (r.recurring && truthyStr r.recurrence_pattern) = true) :
    sweepAux now sec (r :: rest) =
      ({ r with is_triggered := true } ::
          (sweepAux now sec (rest ++ [nextReminder sec r])).1,
        { r with is_triggered := true } ::
          (sweepAux now sec (rest ++ [nextReminder sec r])).2) := by
  rw [sweepAux]
  simp [h1, h2]

theorem sweepAux_cons_fire_norec (now sec : Nat) (r : Reminder)
    (rest : List Reminder)
    (h1 : (!r.is_triggered && decide (r.trigger_time ≤ now)) = true)
    (h2 : (r.recurring && truthyStr r.recurrence_pattern) = false) :
    sweepAux now sec (r :: rest) =
      ({ r with is_triggered := true } :: (sweepAux now sec rest).1,
        { r with is_triggered := true } :: (sweepAux now sec rest).2) := by
  rw [sweepAux]
  simp [h1, h2]

theorem sweepAux_cons_skip (now sec : Nat) (r : Reminder)
    (rest : List Reminder)
    (h1 : (!r.is_triggered && decide (r.trigger_time ≤ now)) = false) :
    sweepAux now sec (r :: rest) =
      (r :: (sweepAux now sec rest).1, (sweepAux now sec rest).2) := by
  rw [sweepAux]
  simp [h1]

/-- After a sweep, every reminder left in the store is either triggered or
scheduled strictly after `now` (appended successors included, since the
loop visits them too). -/
theorem sweepAux_store_post (now sec : Nat) (l : List Reminder) :
    ∀ r ∈ (sweepAux now sec l).1, r.is_triggered = true ∨ now < r.trigger_time := by
  induction l using sweepAux.induct now sec with
  | case1 => simp [sweepAux_nil]
  | case2 r rest h1 h2 ih =>
    rw [sweepAux_cons_fire_rec now sec r rest h1 h2]
    intro x hx
    rcases List.mem_cons.mp hx with hx | hx
    · left; rw [hx]
    · exact ih x hx
  | case3 r rest h1 h2 ih =>
    rw [sweepAux_cons_fire_norec now sec r rest h1 (Bool.not_eq_true _ ▸ h2)]
    intro x hx
    rcases List.mem_cons.mp hx with hx | hx
    · left; rw [hx]
    · exact ih x hx
  | case4 r rest h1 ih =>
    rw [sweepAux_cons_skip now sec r rest (Bool.not_eq_true _ ▸ h1)]
    intro x hx
    rcases List.mem_cons.mp hx with hx | hx
    · subst hx
      simp only [Bool.and_eq_true, Bool.not_eq_true', decide_eq_true_eq] at h1
      rcases Decidable.not_and_iff_or_not.mp h1 with h | h
      · left; simpa using h
      · right; omega
    · exact ih x hx

/-- A sweep over a store in which nothing is due fires nothing and leaves
the store unchanged. -/
theorem sweepAux_nofire (now sec : Nat) (l : List Reminder)
    (h : ∀ r ∈ l, r.is_triggered = true ∨ now < r.trigger_time) :
    sweepAux now sec l = (l, []) := by
  induction l with
  | nil => exact sweepAux_nil now sec
  | cons r rest ih =>
    have hr := h r (List.mem_cons_self r rest)
    have hcond : (!r.is_triggered && decide (r.trigger_time ≤ now)) = false := by
      rcases hr with hr | hr
      · simp [hr]
      · simp [Nat.not_le.mpr hr]
    rw [sweepAux_cons_skip now sec r rest hcond,
      ih (fun x hx => h x (List.mem_cons_of_mem r hx))]

/-- An already-triggered reminder contributes nothing to any sweep: the
fired output over a store containing it equals the fired output over the
store without it.  (Proved by strong induction on the sweep measure, since
the loop appends successors while it runs.) -/
theorem sweepAux_fired_skip_triggered (now sec : Nat) (x : Reminder)
    (hx : x.is_triggered = true) :
    ∀ (pre post : List Reminder),
      (sweepAux now sec (pre ++ x :: post)).2 = (sweepAux now sec (pre ++ post)).2 := by
  suffices h : ∀ (n : Nat) (pre post : List Reminder),
      sweepMeasure now (pre ++ x :: post) ≤ n →
      (sweepAux now sec (pre ++ x :: post)).2 = (sweepAux now sec (pre ++ post)).2 by
    exact fun pre post => h (sweepMeasure now (pre ++ x :: post)) pre post le_rfl
  intro n
  induction n with
  | zero =>
    intro pre post hle
    exfalso
    have hlen : 0 < (pre ++ x :: post).length := by simp
    have : 0 < sweepMeasure now (pre ++ x :: post) := by
      unfold sweepMeasure; omega
    omega
  | succ n ih =>
    intro pre post hle
    cases pre with
    | nil =>
      have hcond : (!x.is_triggered && decide (x.trigger_time ≤ now)) = false := by
        simp [hx]
      simp only [List.nil_append]
      rw [sweepAux_cons_skip now sec x post hcond]
    | cons r pre' =>
      simp only [List.cons_append] at hle ⊢
      by_cases h1 : (!r.is_triggered && decide (r.trigger_time ≤ now)) = true
      · by_cases h2 : (r.recurring && truthyStr r.recurrence_pattern) = true
        · have hassoc1 : (pre' ++ x :: post) ++ [nextReminder sec r] =
              pre' ++ x :: (post ++ [nextReminder sec r]) := by simp
          have hassoc2 : (pre' ++ post) ++ [nextReminder sec r] =
              pre' ++ (post ++ [nextReminder sec r]) := by simp
          have hstep := sweepMeasure_cons_append_lt now sec r (pre' ++ x :: post) h1 h2
          rw [hassoc1] at hstep
          have hrec := ih pre' (post ++ [nextReminder sec r]) (by omega)
          simp only [sweepAux_cons_fire_rec now sec r (pre' ++ x :: post) h1 h2,
            sweepAux_cons_fire_rec now sec r (pre' ++ post) h1 h2]
          rw [hassoc1, hassoc2, hrec]
        · have h2' : (r.recurring && truthyStr r.recurrence_pattern) = false :=
            Bool.not_eq_true _ ▸ h2
          have hstep := sweepMeasure_cons_lt now r (pre' ++ x :: post)
          have hrec := ih pre' post (by omega)
          simp only [sweepAux_cons_fire_norec now sec r (pre' ++ x :: post) h1 h2',
            sweepAux_cons_fire_norec now sec r (pre' ++ post) h1 h2']
          rw [hrec]
      · have h1' : (!r.is_triggered && decide (r.trigger_time ≤ now)) = false :=
          Bool.not_eq_true _ ▸ h1
        have hstep := sweepMeasure_cons_lt now r (pre' ++ x :: post)
        have hrec := ih pre' post (by omega)
        simp only [sweepAux_cons_skip now sec r (pre' ++ x :: post) h1',
          sweepAux_cons_skip now sec r (pre' ++ post) h1']
        exact hrec

/-- Catch-up: when an untriggered recurring reminder with a truthy pattern
is due, every occurrence `trigger_time + k * offset` that is not after
`now` appears in the fired output of the same single sweep, because the
successors inserted during the sweep are themselves visited by it. -/
theorem sweepAux_catchup (now sec : Nat) (l : List Reminder) :
    ∀ r ∈ l, r.is_triggered = false → r.recurring = true →
      truthyStr r.recurrence_pattern = true → r.trigger_time ≤ now →
      ∀ k : Nat,
        r.trigger_time + k * patternOffset (r.recurrence_pattern.getD "") ≤ now →
        ∃ f ∈ (sweepAux now sec l).2,
          f.trigger_time =
            r.trigger_time + k * patternOffset (r.recurrence_pattern.getD "") ∧
          f.message = r.message ∧ f.is_triggered = true := by
  induction l using sweepAux.induct now sec with
  | case1 => intro r hr; cases hr
  | case2 r0 rest h1 h2 ih =>
    intro r hr hrt hrec hpat hdue k hk
    rw [sweepAux_cons_fire_rec now sec r0 rest h1 h2]
    rcases List.mem_cons.mp hr with hr0 | hrmem
    · subst hr0
      cases k with
      | zero =>
        refine ⟨{ r with is_triggered := true }, List.mem_cons_self _ _, ?_, ?_, rfl⟩
        · simp
        · simp
      | succ k' =>
        have hoff : 0 < patternOffset (r.recurrence_pattern.getD "") :=
          patternOffset_pos _
        have hnt : (nextReminder sec r).trigger_time =
            r.trigger_time + patternOffset (r.recurrence_pattern.getD "") := by
          simp [nextReminder, calculate_next_occurrence_eq]
        have hnp : (nextReminder sec r).recurrence_pattern = r.recurrence_pattern := rfl
        have hmul : patternOffset (r.recurrence_pattern.getD "") ≤
            (k' + 1) * patternOffset (r.recurrence_pattern.getD "") := by
          have := Nat.mul_le_mul_right
            (patternOffset (r.recurrence_pattern.getD "")) (Nat.succ_le_succ (Nat.zero_le k'))
          simpa using this
        have hndue : (nextReminder sec r).trigger_time ≤ now := by
          rw [hnt]; omega
        have hsm : (k' + 1) * patternOffset (r.recurrence_pattern.getD "") =
            k' * patternOffset (r.recurrence_pattern.getD "") +
              patternOffset (r.recurrence_pattern.getD "") := Nat.succ_mul _ _
        have hnk : (nextReminder sec r).trigger_time +
            k' * patternOffset ((nextReminder sec r).recurrence_pattern.getD "") ≤ now := by
          rw [hnt, hnp]; omega
        obtain ⟨f, hfmem, hft, hfm, hftr⟩ :=
          ih (nextReminder sec r) (by simp)
            (by simp [nextReminder]) (by simp [nextReminder])
            (by rw [hnp]; exact hpat) hndue k' hnk
        refine ⟨f, List.mem_cons_of_mem _ hfmem, ?_, ?_, hftr⟩
        · rw [hft, hnt, hnp]; omega
        · rw [hfm]; rfl
    · obtain ⟨f, hfmem, hprops⟩ :=
        ih r (List.mem_append_left _ hrmem) hrt hrec hpat hdue k hk
      exact ⟨f, List.mem_cons_of_mem _ hfmem, hprops⟩
  | case3 r0 rest h1 h2 ih =>
    intro r hr hrt hrec hpat hdue k hk
    rw [sweepAux_cons_fire_norec now sec r0 rest h1 (Bool.not_eq_true _ ▸ h2)]
    rcases List.mem_cons.mp hr with hr0 | hrmem
    · exact absurd (hr0 ▸ (by rw [hrec, hpat]; rfl :
        (r.recurring && truthyStr r.recurrence_pattern) = true)) h2
    · obtain ⟨f, hfmem, hprops⟩ := ih r hrmem hrt hrec hpat hdue k hk
      exact ⟨f, List.mem_cons_of_mem _ hfmem, hprops⟩
  | case4 r0 rest h1 ih =>
    intro r hr hrt hrec hpat hdue k hk
    rw [sweepAux_cons_skip now sec r0 rest (Bool.not_eq_true _ ▸ h1)]
    rcases List.mem_cons.mp hr with hr0 | hrmem
    · exact absurd (hr0 ▸ (by rw [hrt]; simpa using hdue :
        (!r.is_triggered && decide (r.trigger_time ≤ now)) = true)) h1
    · exact ih r hrmem hrt hrec hpat hdue k hk

/-! Lemmas about the task ordering of `get_pending_tasks`. -/

theorem mem_insertByDue (t a : Task) (l : List Task) :
    a ∈ insertByDue t l ↔ a = t ∨ a ∈ l := by
  induction l with
  | nil => simp [insertByDue]
  | cons u us ih =>
    unfold insertByDue
    split_ifs with h
    · simp [List.mem_cons]
    · simp only [List.mem_cons, ih]
      tauto

theorem pairwise_insertByDue (t : Task) (l : List Task)
    (h : List.Pairwise (fun a b => dueKey a ≤ dueKey b) l) :
    List.Pairwise (fun a b => dueKey a ≤ dueKey b) (insertByDue t l) := by
  induction l with
  | nil => simp [insertByDue]
  | cons u us ih =>
    rcases List.pairwise_cons.mp h with ⟨hu, hus⟩
    unfold insertByDue
    split_ifs with hle
    · refine List.pairwise_cons.mpr ⟨?_, h⟩
      intro b hb
      rcases List.mem_cons.mp hb with rfl | hb
      · exact hle
      · exact le_trans hle (hu b hb)
    · refine List.pairwise_cons.mpr ⟨?_, ih hus⟩
      intro b hb
      rcases (mem_insertByDue t b us).mp hb with rfl | hb
      · omega
      · exact hu b hb

theorem mem_sortByDue (a : Task) (l : List Task) :
    a ∈ sortByDue l ↔ a ∈ l := by
  induction l with
  | nil => simp [sortByDue]
  | cons u us ih =>
    unfold sortByDue
    rw [mem_insertByDue, ih]
    simp [List.mem_cons]

theorem pairwise_sortByDue (l : List Task) :
    List.Pairwise (fun a b => dueKey a ≤ dueKey b) (sortByDue l) := by
  induction l with
  | nil => simp [sortByDue]
  | cons u us ih => exact pairwise_insertByDue u (sortByDue us) ih

theorem mem_get_pending_tasks (priority_filter : Option String)
    (tasks : List Task) (t : Task)
    (ht : t ∈ get_pending_tasks priority_filter tasks) :
    t ∈ tasks ∧ t.status ≠ "completed" := by
  unfold get_pending_tasks at ht
  rw [mem_sortByDue] at ht
  by_cases hp : truthyStr priority_filter = true
  · rw [if_pos hp] at ht
    have h2 := List.mem_filter.mp ht
    have h1 := List.mem_filter.mp h2.1
    refine ⟨h1.1, by simpa using h1.2⟩
  · rw [if_neg hp] at ht
    have h1 := List.mem_filter.mp ht
    refine ⟨h1.1, by simpa using h1.2⟩

/-! Lemmas about `autonomous_heartbeat`. -/

theorem heartbeat_config_eq (today now sec : Nat) (inp : HeartbeatInput)
    (c : AgentCoordinator) :
    (autonomous_heartbeat today now sec inp c).config = c.config := by
  simp only [autonomous_heartbeat]
  split_ifs <;> rfl

theorem reset_comments_le (today : Nat) (s : DailyStats) (m : Nat)
    (h : s.comments_made ≤ m) :
    (reset_daily_stats today s).comments_made ≤ m := by
  unfold reset_daily_stats
  split_ifs
  · exact Nat.zero_le m
  · exact h

theorem heartbeat_comments_le (today now sec : Nat) (inp : HeartbeatInput)
    (c : AgentCoordinator)
    (h : c.stats.comments_made ≤ c.config.max_daily_comments) :
    (autonomous_heartbeat today now sec inp c).stats.comments_made ≤
      c.config.max_daily_comments := by
  have hres := reset_comments_le today c.stats c.config.max_daily_comments h
  simp only [autonomous_heartbeat]
  split_ifs with hgate hengage herr hfeed hquota
  all_goals try exact hres
  have hq : (reset_daily_stats today c.stats).comments_made <
      c.config.max_daily_comments := by
    simpa using hquota
  show (reset_daily_stats today c.stats).comments_made + 1 ≤
    c.config.max_daily_comments
  omega

theorem foldl_heartbeat_inv (inputs : List (Nat × Nat × Nat × HeartbeatInput)) :
    ∀ c : AgentCoordinator,
      c.stats.comments_made ≤ c.config.max_daily_comments →
      (inputs.foldl heartbeatStep c).stats.comments_made ≤
          c.config.max_daily_comments ∧
        (inputs.foldl heartbeatStep c).config = c.config := by
  induction inputs with
  | nil => exact fun c h => ⟨h, rfl⟩
  | cons p ps ih =>
    intro c h
    have hcfg : (heartbeatStep c p).config = c.config :=
      heartbeat_config_eq p.1 p.2.1 p.2.2.1 p.2.2.2 c
    have hle : (heartbeatStep c p).stats.comments_made ≤
        (heartbeatStep c p).config.max_daily_comments := by
      rw [hcfg]
      exact heartbeat_comments_le p.1 p.2.1 p.2.2.1 p.2.2.2 c h
    obtain ⟨ha, hb⟩ := ih (heartbeatStep c p) hle
    rw [hcfg] at ha hb
    exact ⟨by simpa [List.foldl_cons] using ha, by simpa [List.foldl_cons] using hb⟩

/-! The claims. -/

/-- C1 (code_bug evaluation): identifiers are generated from the wall-clock
second alone, so two distinct tasks created within the same second receive
the same identifier — the uniqueness invariant the spec states fails. -/
theorem task_id_collision :
    (add_task 1000 "Buy milk" "" none "medium" [] 0 []).1.id =
        (add_task 1000 "Call mom" "" none "medium" [] 0 []).1.id ∧
      (add_task 1000 "Buy milk" "" none "medium" [] 0 []).1 ≠
        (add_task 1000 "Call mom" "" none "medium" [] 0 []).1 := by
  decide

/-- C2 (code_bug evaluation): with the social feature enabled and no
client handle — the state produced when the API key is empty — a request
routed to the social branch falls through every `return`, so
`process_user_request` yields no string at all (Python returns `None`
despite the declared return type `str`). -/
theorem social_branch_returns_none :
    socialCexCoord.config.enable_moltbook = true ∧
    socialCexCoord.has_client = false ∧
    (process_user_request socialCexCoord "post to moltbook" 0 0 "p1" 0).1 = none := by
  decide

/-- C3: a second sweep at the same `now` fires nothing: the first sweep
leaves every reminder (catch-up successors included) either triggered or
scheduled strictly after `now`, and triggered reminders never fire again. -/
theorem sweep_idempotent_same_now (reminders : List Reminder)
    (now sec1 sec2 : Nat) :
    (check_reminders now sec2 (check_reminders now sec1 reminders).1).2 = [] := by
  unfold check_reminders
  exact congrArg Prod.snd
    (sweepAux_nofire now sec2 _ (sweepAux_store_post now sec1 reminders))

/-- C4: when a sweep fires an untriggered weekly reminder due at `T`,
exactly one new reminder is appended for the loop to visit — untriggered,
recurring, same weekly pattern, scheduled at `T + 7` days (computed from
the original trigger time, not from `now`) — while the original re-enters
the store with `is_triggered = true`; and (second conjunct) a reminder
marked triggered contributes nothing to the fired output of any later
sweep over any store. -/
theorem weekly_recurrence_fire (now sec : Nat) (r : Reminder)
    (rest : List Reminder) (h1 : r.is_triggered = false)
    (h2 : r.recurring = true) (h3 : r.recurrence_pattern = some "weekly")
    (h4 : r.trigger_time ≤ now) :
    sweepAux now sec (r :: rest) =
      ({ r with is_triggered := true } ::
          (sweepAux now sec (rest ++
            [{ id := mkRemId sec, message := r.message,
               trigger_time := r.trigger_time + 7 * dayU,
               recurring := true, recurrence_pattern := some "weekly",
               is_triggered := false }])).1,
        { r with is_triggered := true } ::
          (sweepAux now sec (rest ++
            [{ id := mkRemId sec, message := r.message,
               trigger_time := r.trigger_time + 7 * dayU,
               recurring := true, recurrence_pattern := some "weekly",
               is_triggered := false }])).2) ∧
    (∀ (now2 sec2 : Nat) (pre post : List Reminder),
      (sweepAux now2 sec2 (pre ++ { r with is_triggered := true } :: post)).2 =
        (sweepAux now2 sec2 (pre ++ post)).2) := by
  have hco : calculate_next_occurrence r.trigger_time "weekly" =
      r.trigger_time + 7 * dayU := rfl
  have hnext : nextReminder sec r =
      { id := mkRemId sec, message := r.message,
        trigger_time := r.trigger_time + 7 * dayU, recurring := true,
        recurrence_pattern := some "weekly", is_triggered := false } := by
    simp [nextReminder, h3, hco]
  constructor
  · have hc1 : (!r.is_triggered && decide (r.trigger_time ≤ now)) = true := by
      simp [h1, h4]
    have hc2 : (r.recurring && truthyStr r.recurrence_pattern) = true := by
      rw [h2, h3]; rfl
    rw [sweepAux_cons_fire_rec now sec r rest hc1 hc2, hnext]
  · intro now2 sec2 pre post
    exact sweepAux_fired_skip_triggered now2 sec2 _ rfl pre post

/-- C4 witness: the weekly reminder `weeklyRem`, due at 0, fired by a sweep
at `now = dayU`. -/
theorem weekly_recurrence_fire_witness :
    sweepAux dayU 5 (weeklyRem :: []) =
      ({ weeklyRem with is_triggered := true } ::
          (sweepAux dayU 5 ([] ++
            [{ id := mkRemId 5, message := weeklyRem.message,
               trigger_time := weeklyRem.trigger_time + 7 * dayU,
               recurring := true, recurrence_pattern := some "weekly",
               is_triggered := false }])).1,
        { weeklyRem with is_triggered := true } ::
          (sweepAux dayU 5 ([] ++
            [{ id := mkRemId 5, message := weeklyRem.message,
               trigger_time := weeklyRem.trigger_time + 7 * dayU,
               recurring := true, recurrence_pattern := some "weekly",
               is_triggered := false }])).2) ∧
    (∀ (now2 sec2 : Nat) (pre post : List Reminder),
      (sweepAux now2 sec2 (pre ++ { weeklyRem with is_triggered := true } :: post)).2 =
        (sweepAux now2 sec2 (pre ++ post)).2) :=
  weekly_recurrence_fire dayU 5 weeklyRem [] rfl rfl rfl (Nat.zero_le _)

/-- C5 counterexample: a store built by two `add_task` calls — one task
with no due date, then one whose due date is `datetime.max` — for which
`pending()` places the task without a due date before a task with one,
because `datetime.max` ties with the missing-due sort key and Python's
stable sort keeps insertion order. -/
theorem pending_order_counterexample :
    (get_pending_tasks none pendingCexStore).map Task.due_date =
        [none, some datetimeMax] ∧
      ¬ List.Pairwise (fun a b => a.due_date = none → b.due_date = none)
        (get_pending_tasks none pendingCexStore) := by
  decide

/-- C5 (amended): `pending()` contains only non-completed tasks and is
sorted by the key `due_date or datetime.max`; consequently every task
whose due date is earlier than `datetime.max` precedes every task without
a due date (a task due exactly at `datetime.max` ties with due-less tasks
and may follow them), and tasks with due dates appear in non-decreasing
due-date order. -/
theorem pending_order_amended (priority_filter : Option String)
    (tasks : List Task) :
    (∀ t ∈ get_pending_tasks priority_filter tasks, t.status ≠ "completed") ∧
    List.Pairwise (fun a b => dueKey a ≤ dueKey b)
      (get_pending_tasks priority_filter tasks) ∧
    List.Pairwise (fun a b => ∀ d : Nat,
        a.due_date = none → b.due_date = some d → datetimeMax ≤ d)
      (get_pending_tasks priority_filter tasks) ∧
    List.Pairwise (fun a b => ∀ da db : Nat,
        a.due_date = some da → b.due_date = some db → da ≤ db)
      (get_pending_tasks priority_filter tasks) := by
  have hsorted : List.Pairwise (fun a b => dueKey a ≤ dueKey b)
      (get_pending_tasks priority_filter tasks) := by
    unfold get_pending_tasks
    exact pairwise_sortByDue _
  refine ⟨fun t ht => (mem_get_pending_tasks _ _ t ht).2, hsorted, ?_, ?_⟩
  · refine hsorted.imp ?_
    intro a b hab d ha hb
    unfold dueKey at hab
    rw [ha, hb] at hab
    simpa using hab
  · refine hsorted.imp ?_
    intro a b hab da db ha hb
    unfold dueKey at hab
    rw [ha, hb] at hab
    simpa using hab

/-- C6: any request containing a task-branch keyword is handled by rule 1
(the task branch) no matter which other rules' keywords it also contains:
the if/elif chain is evaluated in source order and rule 1 comes first, so
the result is one of the two rule-1 confirmations, never the
information-retrieval result. -/
theorem router_task_precedence (c : AgentCoordinator) (request : String)
    (nowDT sec : Nat) (postId : String) (pick : Nat)
    (htask : containsAny (toLowerStr request) taskWords = true)
    (hsearch : containsAny (toLowerStr request) searchWords = true) :
    (process_user_request c request nowDT sec postId pick).1 =
        some ("✅ Reminder set: " ++ request) ∨
      (process_user_request c request nowDT sec postId pick).1 =
        some ("✅ Task added: " ++ request) := by
  unfold process_user_request
  by_cases hrem : containsSub (toLowerStr request) "remind" = true
  · left
    simp [htask, hrem, add_reminder]
  · right
    have hrem' : containsSub (toLowerStr request) "remind" = false :=
      Bool.not_eq_true _ ▸ hrem
    simp [htask, hrem', add_task]

/-- C6 witness: a request containing both "task"/"add" and "search". -/
theorem router_task_precedence_witness :
    (process_user_request (AgentCoordinator.init {} false 0)
        "Add task to search for recipes" 0 5 "p1" 0).1 =
        some ("✅ Reminder set: " ++ "Add task to search for recipes") ∨
      (process_user_request (AgentCoordinator.init {} false 0)
        "Add task to search for recipes" 0 5 "p1" 0).1 =
        some ("✅ Task added: " ++ "Add task to search for recipes") :=
  router_task_precedence (AgentCoordinator.init {} false 0)
    "Add task to search for recipes" 0 5 "p1" 0 (by decide) (by decide)

/-- C7: reconciling on a later calendar day zeroes `posts_made` and
`comments_made` and moves `last_reset` to the new day, whatever the
counters held; reconciling on the same day changes nothing. -/
theorem daily_stats_reset (s : DailyStats) (dayNew : Nat)
    (h : s.last_reset < dayNew) :
    (reset_daily_stats dayNew s).posts_made = 0 ∧
    (reset_daily_stats dayNew s).comments_made = 0 ∧
    (reset_daily_stats dayNew s).last_reset = dayNew ∧
    reset_daily_stats s.last_reset s = s := by
  have hne : dayNew ≠ s.last_reset := by omega
  unfold reset_daily_stats
  simp [hne]

/-- C7 witness: counters (3, 4, 5) with `last_reset` day 10, reconciled on
day 11 and on day 10. -/
theorem daily_stats_reset_witness :
    (reset_daily_stats 11 ⟨3, 4, 5, 10⟩).posts_made = 0 ∧
    (reset_daily_stats 11 ⟨3, 4, 5, 10⟩).comments_made = 0 ∧
    (reset_daily_stats 11 ⟨3, 4, 5, 10⟩).last_reset = 11 ∧
    reset_daily_stats 10 ⟨3, 4, 5, 10⟩ = ⟨3, 4, 5, 10⟩ :=
  daily_stats_reset ⟨3, 4, 5, 10⟩ 11 (by decide)

/-- C8: across any sequence of autonomous-cycle invocations starting from
`comments_made = 0`, the comment counter never exceeds
`max_daily_comments`, because each invocation increments only after
checking `comments_made < max_daily_comments`. -/
theorem comments_quota_bound (c0 : AgentCoordinator)
    (inputs : List (Nat × Nat × Nat × HeartbeatInput))
    (h : c0.stats.comments_made = 0) :
    (inputs.foldl heartbeatStep c0).stats.comments_made ≤
      c0.config.max_daily_comments :=
  (foldl_heartbeat_inv inputs c0 (by rw [h]; exact Nat.zero_le _)).1

/-- C8 witness: one engaging invocation on a fresh coordinator. -/
theorem comments_quota_bound_witness :
    (([(0, dayU, 5, ({ engage := true, feed_len := 1, social_error := false } :
          HeartbeatInput))] :
        List (Nat × Nat × Nat × HeartbeatInput)).foldl heartbeatStep
      (AgentCoordinator.init {} true 0)).stats.comments_made ≤
      (AgentCoordinator.init {} true 0).config.max_daily_comments :=
  comments_quota_bound (AgentCoordinator.init {} true 0) _ rfl

/-- C9: a recurrence pattern that is none of "daily", "weekly", "monthly"
falls through every branch of `_calculate_next_occurrence` to the final
`+ 1 day` fallback; the computation never fails. -/
theorem malformed_pattern_daily_fallback (t : Nat) (p : String)
    (h1 : p ≠ "daily") (h2 : p ≠ "weekly") (h3 : p ≠ "monthly") :
    calculate_next_occurrence t p = t + dayU := by
  simp [calculate_next_occurrence, h1, h2, h3]

/-- C9 witness: the unsupported pattern "yearly". -/
theorem malformed_pattern_daily_fallback_witness :
    calculate_next_occurrence 5 "yearly" = 5 + dayU :=
  malformed_pattern_daily_fallback 5 "yearly" (by decide) (by decide) (by decide)

/-- C10: after a sweep returns, every reminder in the store is triggered
or scheduled strictly after `now`; and every catch-up occurrence
(`trigger_time + k * offset ≤ now`) of a due untriggered recurring
reminder fires within that same single sweep, because successors inserted
during the sweep are visited by it. -/
theorem sweep_store_future_and_catchup :
    (∀ (l : List Reminder) (now sec : Nat) (x : Reminder),
      x ∈ (check_reminders now sec l).1 →
        x.is_triggered = true ∨ now < x.trigger_time) ∧
    (∀ (l : List Reminder) (now sec : Nat) (r : Reminder), r ∈ l →
      r.is_triggered = false → r.recurring = true →
      truthyStr r.recurrence_pattern = true → r.trigger_time ≤ now →
      ∀ k : Nat,
        r.trigger_time + k * patternOffset (r.recurrence_pattern.getD "") ≤ now →
        ∃ f ∈ (check_reminders now sec l).2,
          f.trigger_time =
              r.trigger_time + k * patternOffset (r.recurrence_pattern.getD "") ∧
            f.message = r.message ∧ f.is_triggered = true) :=
  ⟨fun l now sec => sweepAux_store_post now sec l,
    fun l now sec r hr h1 h2 h3 h4 k hk =>
      sweepAux_catchup now sec l r hr h1 h2 h3 h4 k hk⟩

/-- C10 witness: the daily reminder `dailyRem`, due at 0, swept at
`now = 2` days: its occurrence at `0 + 2 * dayU` fires in that sweep. -/
theorem sweep_store_future_and_catchup_witness :
    ∃ f ∈ (check_reminders (2 * dayU) 7 [dailyRem]).2,
      f.trigger_time =
          dailyRem.trigger_time +
            2 * patternOffset (dailyRem.recurrence_pattern.getD "") ∧
        f.message = dailyRem.message ∧ f.is_triggered = true :=
  sweep_store_future_and_catchup.2 [dailyRem] (2 * dayU) 7 dailyRem
    (by simp) rfl rfl rfl (Nat.zero_le _) 2 (by decide)

end Moltbot
